import Mathlib

/-!
Shallow embedding of the core of the `qr-svg-builder` repository:
the symmetric obfuscator and session guard (`src/utils/audioCrypto.ts`),
the signed audio play-quota counter (`src/utils/audioLimit.ts`),
the unsigned video play-quota counter (`videoLimit.ts`, bundled in
`src/utils/downloadSvg.ts`), the media caches (`src/utils/videoCache.ts`,
`src/utils/audioCache.ts`) and the alternate session guard
(`src/utils/qrSession.ts`).

Modelling conventions:
* JS numbers that hold timestamps, durations and counters are `Int`.
* Byte buffers (`Uint8Array` / `ArrayBuffer`) are `List Nat` of byte values.
* Browser storage content is passed explicitly: each operation is a pure
  function of (stored value, current time, inputs) to (result, new value).
* Persisted JSON blobs are modelled at the granularity the code inspects
  them: `Option (Option T)` or an inductive with an `absent`, a `garbage`
  (unparseable) and a well-typed `record` case.
-/

namespace audioCrypto

/-- The fixed embedded secret of `src/utils/audioCrypto.ts`. -/
def SECRET : String := "bfouru-qr-audio-secret-v1"

/-- Source `keyBytes()`: the UTF-8 bytes of the secret (all ASCII, so code points). -/
def keyBytes : List Nat := SECRET.data.map Char.toNat

/-- The indexed loop body of `xor(data, key)`:
`out[i] = data[i] ^ key[i % key.length]`. -/
def xorFrom (key : List Nat) (i : Nat) : List Nat → List Nat
  | [] => []
  | b :: rest => (b ^^^ key.getD (i % key.length) 0) :: xorFrom key (i + 1) rest

/-- Source `xor(data, key)` of `src/utils/audioCrypto.ts`. -/
def xorBytes (data key : List Nat) : List Nat := xorFrom key 0 data

/-- Source `encryptBytes(buf)`. -/
def encryptBytes (buf : List Nat) : List Nat := xorBytes buf keyBytes

/-- Source `decryptBytes(buf)`: XOR decrypt = XOR encrypt. -/
def decryptBytes (buf : List Nat) : List Nat := xorBytes buf keyBytes

lemma xorFrom_xorFrom (key : List Nat) (i : Nat) (b : List Nat) :
    xorFrom key i (xorFrom key i b) = b := by
  induction b generalizing i with
  | nil => rfl
  | cons hd tl ih =>
    simp [xorFrom, Nat.xor_cancel_right, ih]

lemma decryptBytes_encryptBytes (b : List Nat) :
    decryptBytes (encryptBytes b) = b := by
  simp [decryptBytes, encryptBytes, xorBytes, xorFrom_xorFrom]

end audioCrypto

namespace audioLimit

/-- Source `MAX_PLAYS` of `src/utils/audioLimit.ts`. -/
def MAX_PLAYS : Int := 5

/-- The fixed salt of `src/utils/audioLimit.ts`. -/
def SALT : String := "bfouru-audio-limit-v2"

/-- Modelled from the spec: `sign` interpolates `dateKey|used|SALT` and hashes it
with `crypto.subtle.digest("SHA-256", ...)`, a browser API outside the repository.
The spec calls it "a cryptographic digest over (dayKey, usedCount, a fixed
application secret), used to detect tampering"; we idealize the digest as
collision-free and represent it by the signed data itself. -/
structure Digest where
  dateKey : String
  used : Int
  salt : String
deriving DecidableEq

/-- Source `sign(state)` of `src/utils/audioLimit.ts`. -/
def sign (dateKey : String) (used : Int) : Digest := ⟨dateKey, used, SALT⟩

/-- The persisted `LimitState` record: `{ dateKey, used, sig }`. -/
structure LimitState where
  dateKey : String
  used : Int
  sig : Digest
deriving DecidableEq

/-- The `localStorage` slot under the limiter's key: `none` = absent,
`some none` = present but not parseable as a record (the `catch` branch),
`some (some st)` = parses to a well-typed record. -/
abbrev Raw := Option (Option LimitState)

/-- Source `Math.max(0, Math.min(MAX_PLAYS, Number(parsed.used) || 0))`; on integer
inputs the `Number(_) || 0` coercion is the identity. -/
def clamp (u : Int) : Int := max 0 (min MAX_PLAYS u)

/-- The zero-for-today state that `readState` falls back to. -/
def freshState (today : String) : LimitState := ⟨today, 0, sign today 0⟩

/-- Source `readState()` of `src/utils/audioLimit.ts`, with the stored value and
today's date key passed explicitly. -/
def readState (raw : Raw) (today : String) : LimitState :=
  match raw with
  | none => freshState today
  | some none => freshState today
  | some (some parsed) =>
    if parsed.dateKey ≠ today then freshState today
    else if sign parsed.dateKey parsed.used ≠ parsed.sig then freshState today
    else
      let used := clamp parsed.used
      ⟨today, used, sign today used⟩

/-- Source `writeState(state)`: persists the state together with its signature. -/
def writeState (dateKey : String) (used : Int) : Raw :=
  some (some ⟨dateKey, used, sign dateKey used⟩)

/-- Source `getRemainingPlays()`. -/
def getRemainingPlays (raw : Raw) (today : String) : Int :=
  max 0 (MAX_PLAYS - (readState raw today).used)

/-- Source `canPlayAudio()`. -/
def canPlayAudio (raw : Raw) (today : String) : Bool :=
  getRemainingPlays raw today > 0

/-- Source `incrementAudioPlay()`: read, clamp-increment, write back. -/
def incrementAudioPlay (today : String) (raw : Raw) : Raw :=
  let st := readState raw today
  writeState st.dateKey (min MAX_PLAYS (st.used + 1))

lemma clamp_eq (n : Int) (h0 : 0 ≤ n) (h5 : n ≤ MAX_PLAYS) : clamp n = n := by
  simp only [clamp, MAX_PLAYS] at *
  omega

lemma readState_writeState (today : String) (n : Int) (h0 : 0 ≤ n)
    (h5 : n ≤ MAX_PLAYS) :
    readState (writeState today n) today = ⟨today, n, sign today n⟩ := by
  simp [readState, writeState, clamp_eq n h0 h5]

lemma readState_dateKey (raw : Raw) (today : String) :
    (readState raw today).dateKey = today := by
  rcases raw with _ | _ | p <;> simp [readState, freshState]
  split_ifs <;> simp [freshState]

lemma readState_used_bounds (raw : Raw) (today : String) :
    0 ≤ (readState raw today).used ∧ (readState raw today).used ≤ MAX_PLAYS := by
  rcases raw with _ | _ | p
  · norm_num [readState, freshState, MAX_PLAYS]
  · norm_num [readState, freshState, MAX_PLAYS]
  · simp only [readState]
    split_ifs <;> norm_num [freshState, clamp, MAX_PLAYS]

end audioLimit

/-- A persisted session slot, shared by both session-guard modules: `absent` =
nothing stored under the key, `garbage` = present but `JSON.parse` throws,
`record a b` = parses to a record with integer fields, `a` the start
timestamp (`unlockedAt` / `sessionStart`), `b` the last-activity timestamp. -/
inductive SessionRaw
  | absent
  | garbage
  | record (start last : Int)
deriving DecidableEq

namespace audioCrypto

/-- Source `IDLE_LIMIT` of `src/utils/audioCrypto.ts` (1 minute). -/
def IDLE_LIMIT : Int := 1 * 60 * 1000

/-- Source `MAX_SESSION` of `src/utils/audioCrypto.ts` (2 minutes). -/
def MAX_SESSION : Int := 2 * 60 * 1000

/-- Source `isSessionValid()` of `src/utils/audioCrypto.ts`. -/
def isSessionValid (raw : SessionRaw) (now : Int) : Bool :=
  match raw with
  | .absent => false
  | .garbage => false
  | .record a b =>
    if now - a > MAX_SESSION then false
    else if now - b > IDLE_LIMIT then false
    else true

/-- Source `updateActivity()` of `src/utils/audioCrypto.ts`: spread the parsed record,
overriding `lastActivityAt`; ignore absent or unparseable data. -/
def updateActivity (raw : SessionRaw) (now : Int) : SessionRaw :=
  match raw with
  | .absent => .absent
  | .garbage => .garbage
  | .record a _ => .record a now

/-- Source `clearSession()`. -/
def clearSession (_raw : SessionRaw) : SessionRaw := .absent

/-- Source `getRemainingTimes()` of `src/utils/audioCrypto.ts`. -/
def getRemainingTimes (raw : SessionRaw) (now : Int) : Option (Int × Int) :=
  match raw with
  | .absent => none
  | .garbage => none
  | .record a b =>
    some (max 0 (MAX_SESSION - (now - a)), max 0 (IDLE_LIMIT - (now - b)))

/-- Source `startSession()`. -/
def startSession (now : Int) : SessionRaw := .record now now

end audioCrypto

namespace qrSession

/-- Source `SESSION_MS` of `src/utils/qrSession.ts` (10 minutes). -/
def SESSION_MS : Int := 10 * 60 * 1000

/-- Source `IDLE_MS` of `src/utils/qrSession.ts` (5 minutes). -/
def IDLE_MS : Int := 5 * 60 * 1000

/-- The `Session` record of `src/utils/qrSession.ts`. -/
structure Session where
  sessionStart : Int
  lastActivity : Int
deriving DecidableEq

/-- Source `read()` of `src/utils/qrSession.ts`: parses the stored value and rejects
records either of whose numeric fields is falsy
(`!s?.sessionStart || !s?.lastActivity`, i.e. zero on the integer domain). -/
def read (raw : SessionRaw) : Option Session :=
  match raw with
  | .absent => none
  | .garbage => none
  | .record a b => if a = 0 ∨ b = 0 then none else some ⟨a, b⟩

/-- Source `write(s)`. -/
def write (s : Session) : SessionRaw := .record s.sessionStart s.lastActivity

/-- Source `startSession()`. -/
def startSession (now : Int) : SessionRaw := write ⟨now, now⟩

/-- Source `updateActivity()`: no-op unless `read` succeeds; otherwise rewrites the
record with `lastActivity = now`. -/
def updateActivity (raw : SessionRaw) (now : Int) : SessionRaw :=
  match read raw with
  | none => raw
  | some s => write ⟨s.sessionStart, now⟩

/-- Source `clearSession()`. -/
def clearSession (_raw : SessionRaw) : SessionRaw := .absent

/-- Source `isSessionValid()` of `src/utils/qrSession.ts`. -/
def isSessionValid (raw : SessionRaw) (now : Int) : Bool :=
  match read raw with
  | none => false
  | some s =>
    decide (SESSION_MS - (now - s.sessionStart) > 0) &&
      decide (IDLE_MS - (now - s.lastActivity) > 0)

/-- Source `getRemainingTimes()` of `src/utils/qrSession.ts`. -/
def getRemainingTimes (raw : SessionRaw) (now : Int) : Option (Int × Int) :=
  match read raw with
  | none => none
  | some s =>
    some (max 0 (SESSION_MS - (now - s.sessionStart)),
      max 0 (IDLE_MS - (now - s.lastActivity)))

end qrSession

namespace videoLimit

/-- Source `MAX_VIDEO_PLAYS` of the `videoLimit.ts` module bundled in
`src/utils/downloadSvg.ts`. -/
def MAX_VIDEO_PLAYS : Int := 5

/-- The `localStorage` slot under today's `video-plays-...` key: `none` =
absent, `some n` = the stored decimal string for count `n` (the module only
ever writes `String(used + 1)`). -/
abbrev Raw := Option Int

/-- Source `Number(localStorage.getItem(key) || "0")`. -/
def usedFrom (raw : Raw) : Int := raw.getD 0

/-- Source `getRemainingVideoPlays()`. -/
def getRemainingVideoPlays (raw : Raw) : Int :=
  max 0 (MAX_VIDEO_PLAYS - usedFrom raw)

/-- Source `incrementVideoPlay()`: stores `used + 1` with no clamp and no signature. -/
def incrementVideoPlay (raw : Raw) : Raw := some (usedFrom raw + 1)

/-- Source `canPlayVideo()`. -/
def canPlayVideo (raw : Raw) : Bool := getRemainingVideoPlays raw > 0

end videoLimit

/-- Load failures of the media caches: a non-ok network response or transport
failure (`fetchError`, thrown by the code) or a rejected store-write
transaction (`storeError`, propagated by the awaited transaction). -/
inductive LoadError
  | fetchError
  | storeError
deriving DecidableEq

/-- The `"cache" | "network"` source tag of a load result. -/
inductive MediaSource
  | cache
  | network
deriving DecidableEq

namespace videoCache

/-- The `CachedVideo` record persisted in the `qr-media-cache` object store. -/
structure CachedVideo where
  key : String
  data : List Nat
  createdAt : Int
  ttlMs : Int
  encrypted : Bool
  mime : String
deriving DecidableEq

/-- The IndexedDB object store with `keyPath: "key"`. -/
abbrev Store := List CachedVideo

/-- Source `store.get(key)`. -/
def findEntry (store : Store) (k : String) : Option CachedVideo :=
  store.find? (fun c => c.key == k)

/-- Source `store.put(entry)`: upsert by primary key. -/
def putEntry (store : Store) (e : CachedVideo) : Store :=
  store.filter (fun c => c.key != e.key) ++ [e]

/-- The observable outcome of a successful `loadVideoWithCache` call: the
playable bytes and source tag it returns, the object store after the call,
and whether a network fetch was performed. -/
structure LoadOutcome where
  bytes : List Nat
  source : MediaSource
  store : Store
  fetched : Bool
deriving DecidableEq

/-- The network-and-write phase of `loadVideoWithCache`, reached on a cache
miss or a stale entry. `fetch` models the network (`none` = non-ok response,
which the code turns into a thrown error); `writeOk` models whether the
readwrite transaction completes (`await txDone(tx)` rejects otherwise, and
that rejection propagates out of the call). -/
def networkPhase (fetch : String → Option (List Nat)) (writeOk : Bool)
    (now : Int) (store : Store) (absUrl : String) (ttlMs : Int)
    (useEncrypt : Bool) (mime : String) : Except LoadError LoadOutcome :=
  match fetch absUrl with
  | none => .error .fetchError
  | some buf =>
    let writeBuf := if useEncrypt then audioCrypto.encryptBytes buf else buf
    if writeOk then
      .ok ⟨buf, .network,
        putEntry store ⟨absUrl, writeBuf, now, ttlMs, useEncrypt, mime⟩, true⟩
    else .error .storeError

/-- Source `loadVideoWithCache(opts)` of `src/utils/videoCache.ts`, with the URL
normalizer (`new URL(url, base).href`), the network, the store-write success,
the store content and the clock passed explicitly. A failed `store.get`
resolves `undefined` in the code, i.e. behaves as an absent entry, which the
quantification over `store` already covers. -/
def loadVideoWithCache (normalize : String → String)
    (fetch : String → Option (List Nat)) (writeOk : Bool) (now : Int)
    (store : Store) (url : String) (ttlMs : Int) (useEncrypt : Bool)
    (mime : String) : Except LoadError LoadOutcome :=
  let absUrl := normalize url
  match findEntry store absUrl with
  | some cached =>
    if now - cached.createdAt < cached.ttlMs then
      .ok ⟨(if cached.encrypted then audioCrypto.decryptBytes cached.data
        else cached.data), .cache, store, false⟩
    else networkPhase fetch writeOk now store absUrl ttlMs useEncrypt mime
  | none => networkPhase fetch writeOk now store absUrl ttlMs useEncrypt mime

/-- Source `clearExpiredVideoCache()`: the cursor deletes entries with
`now - createdAt > ttlMs` and keeps the rest. -/
def clearExpiredVideoCache (now : Int) (store : Store) : Store :=
  store.filter (fun v => !(decide (now - v.createdAt > v.ttlMs)))

/-- Source `clearAllVideoCache()`. -/
def clearAllVideoCache (_store : Store) : Store := []

lemma findEntry_putEntry_video (store : Store) (e : CachedVideo) :
    findEntry (putEntry store e) e.key = some e := by
  unfold findEntry putEntry
  induction store with
  | nil => simp
  | cons hd tl ih =>
    by_cases h : hd.key = e.key
    · simp only [List.filter_cons, h]
      simp only [bne_self_eq_false, Bool.false_eq_true] at *
      simp [h, ih]
    · simp [List.filter_cons, h, List.find?, ih]

end videoCache

namespace audioCache

/-- Source `CACHE_TTL` of `src/utils/audioCache.ts` (5 minutes). -/
def CACHE_TTL : Int := 5 * 60 * 1000

/-- The `CachedAudio` record persisted in the `qr-audio-cache` object store. -/
structure CachedAudio where
  key : String
  data : List Nat
  createdAt : Int
deriving DecidableEq

/-- The IndexedDB object store with `keyPath: "key"`. -/
abbrev Store := List CachedAudio

/-- Source `store.get(url)` (the raw URL is the key; no normalization here). -/
def findEntry (store : Store) (k : String) : Option CachedAudio :=
  store.find? (fun c => c.key == k)

/-- Source `store.put(entry)`: upsert by primary key. -/
def putEntry (store : Store) (e : CachedAudio) : Store :=
  store.filter (fun c => c.key != e.key) ++ [e]

/-- The observable outcome of a successful `getCachedAudioUrlOrFetch` call. -/
structure LoadOutcome where
  bytes : List Nat
  source : MediaSource
  store : Store
  fetched : Bool
deriving DecidableEq

/-- The network-and-write phase of `getCachedAudioUrlOrFetch`; the write
promise rejects with the transaction error when the write fails, and that
rejection propagates out of the call. -/
def networkPhase (fetch : String → Option (List Nat)) (writeOk : Bool)
    (now : Int) (store : Store) (url : String) :
    Except LoadError LoadOutcome :=
  match fetch url with
  | none => .error .fetchError
  | some buf =>
    if writeOk then
      .ok ⟨buf, .network, putEntry store ⟨url, buf, now⟩, true⟩
    else .error .storeError

/-- Source `getCachedAudioUrlOrFetch(url)` of `src/utils/audioCache.ts`. The two
`Date.now()` calls of one invocation are modelled by the single `now`. -/
def getCachedAudioUrlOrFetch (fetch : String → Option (List Nat))
    (writeOk : Bool) (now : Int) (store : Store) (url : String) :
    Except LoadError LoadOutcome :=
  match findEntry store url with
  | some cached =>
    if now - cached.createdAt < CACHE_TTL then
      .ok ⟨cached.data, .cache, store, false⟩
    else networkPhase fetch writeOk now store url
  | none => networkPhase fetch writeOk now store url

/-- Source `clearExpiredAudioCache()`: the cursor deletes entries with
`now - createdAt > CACHE_TTL` and keeps the rest. -/
def clearExpiredAudioCache (now : Int) (store : Store) : Store :=
  store.filter (fun v => !(decide (now - v.createdAt > CACHE_TTL)))

/-- Source `clearAllAudioCache()`. -/
def clearAllAudioCache (_store : Store) : Store := []

lemma findEntry_putEntry_audio (store : Store) (e : CachedAudio) :
    findEntry (putEntry store e) e.key = some e := by
  unfold findEntry putEntry
  induction store with
  | nil => simp
  | cons hd tl ih =>
    by_cases h : hd.key = e.key
    · simp only [List.filter_cons, h]
      simp only [bne_self_eq_false, Bool.false_eq_true] at *
      simp [h, ih]
    · simp [List.filter_cons, h, List.find?, ih]

end audioCache

/-- C5: the obfuscator's decrypt transform undoes its encrypt transform on
every byte sequence, the empty one included; both are total functions. -/
theorem C5_obfuscator_roundtrip (b : List Nat) :
    audioCrypto.decryptBytes (audioCrypto.encryptBytes b) = b :=
  audioCrypto.decryptBytes_encryptBytes b

/-- C1, counterexample: the claim fails for the video asset class. The video
limiter persists a bare count with no integrity signature; after a legitimate
count of 2 is mutated directly to 3, the next read honors the mutated count
(remaining = 2) instead of resetting `usedCount` to 0 (which would give
remaining = `MAX_VIDEO_PLAYS` = 5). -/
theorem C1_video_no_reset_counterexample :
    videoLimit.getRemainingVideoPlays (some 3) = 2 ∧
    videoLimit.usedFrom (some 3) = 3 ∧
    videoLimit.getRemainingVideoPlays (some 3) ≠ videoLimit.MAX_VIDEO_PLAYS := by
  refine ⟨rfl, rfl, by decide⟩

/-- C1, amended to the audio asset class: if the persisted audio-quota payload's
`used` is mutated from `u` to a different `u'` while its signature (computed
for `u`) is kept, the next `readState` treats the state as corrupted and resets
`used` to 0 for today, so `getRemainingPlays` reports the full allowance. -/
theorem C1_audio_tamper_resets (today : String) (u u' : Int) (h : u' ≠ u) :
    audioLimit.readState (some (some ⟨today, u', audioLimit.sign today u⟩)) today
      = audioLimit.freshState today ∧
    audioLimit.getRemainingPlays
      (some (some ⟨today, u', audioLimit.sign today u⟩)) today
      = audioLimit.MAX_PLAYS := by
  have hsig : audioLimit.sign today u' ≠ audioLimit.sign today u := by
    simp [audioLimit.sign, audioLimit.Digest.mk.injEq]
    exact fun h' => absurd h' h
  constructor
  · simp [audioLimit.readState, hsig]
  · simp [audioLimit.getRemainingPlays, audioLimit.readState, hsig,
      audioLimit.freshState, audioLimit.MAX_PLAYS]

/-- C1 witness: the amended theorem applied at a concrete tampering (stored
count 1 rewritten to 2 under the signature for 1). -/
theorem C1_audio_tamper_resets_witness :
    audioLimit.readState
      (some (some ⟨"2025-01-01", 2, audioLimit.sign "2025-01-01" 1⟩))
      "2025-01-01" = audioLimit.freshState "2025-01-01" :=
  (C1_audio_tamper_resets "2025-01-01" 1 2 (by decide)).1

/-- The audio-quota store after `k` completed plays recorded from a fresh day. -/
def audioAfter (k : Nat) : audioLimit.Raw :=
  (audioLimit.incrementAudioPlay "2025-01-01")^[k] none

/-- The video-quota store after `k` completed plays recorded from a fresh day. -/
def videoAfter (k : Nat) : videoLimit.Raw :=
  videoLimit.incrementVideoPlay^[k] none

/-- C3, counterexample: the claim fails for the video asset class. From a
same-day state with `usedCount = 5 = MAX_VIDEO_PLAYS`, `incrementVideoPlay`
stores 6, not `min (5 + 1) MAX_VIDEO_PLAYS = 5`: the video counter does not
clamp. -/
theorem C3_video_unclamped_counterexample :
    videoLimit.incrementVideoPlay (some 5) = some 6 ∧
    min ((5 : Int) + 1) videoLimit.MAX_VIDEO_PLAYS = 5 ∧ (6 : Int) ≠ 5 :=
  ⟨rfl, by decide, by decide⟩

/-- C3, amended: for the audio class, from a same-day well-formed state with
`used = n`, `incrementAudioPlay` leaves `used = min (n + 1) MAX_PLAYS`; after
`MAX_PLAYS` calls from a fresh day the remaining count is 0 and `canPlayAudio`
is false, and a sixth call leaves `used` at `MAX_PLAYS` with no error. For the
video class the sixth call instead stores the unclamped count 6, although
`getRemainingVideoPlays` still reports 0 and `canPlayVideo` false. -/
theorem C3_increment_clamping :
    (∀ (today : String) (n : Int), 0 ≤ n → n ≤ audioLimit.MAX_PLAYS →
      audioLimit.incrementAudioPlay today (audioLimit.writeState today n) =
        audioLimit.writeState today (min (n + 1) audioLimit.MAX_PLAYS)) ∧
    (audioLimit.getRemainingPlays (audioAfter 5) "2025-01-01" = 0 ∧
      audioLimit.canPlayAudio (audioAfter 5) "2025-01-01" = false ∧
      audioAfter 6 = audioLimit.writeState "2025-01-01" 5) ∧
    (videoAfter 5 = some 5 ∧
      videoLimit.getRemainingVideoPlays (videoAfter 5) = 0 ∧
      videoLimit.canPlayVideo (videoAfter 5) = false ∧
      videoAfter 6 = some 6) := by
  refine ⟨fun today n h0 h5 => ?_, ⟨by decide, by decide, by decide⟩,
    ⟨by decide, by decide, by decide, by decide⟩⟩
  simp [audioLimit.incrementAudioPlay,
    audioLimit.readState_writeState today n h0 h5, min_comm]

/-- C3 witness: the clamp law applied at `n = 3` on a concrete day. -/
theorem C3_increment_clamping_witness :
    audioLimit.incrementAudioPlay "2025-01-01"
      (audioLimit.writeState "2025-01-01" 3) =
      audioLimit.writeState "2025-01-01" (min (3 + 1) audioLimit.MAX_PLAYS) :=
  C3_increment_clamping.1 "2025-01-01" 3 (by decide) (by decide)

/-- C9: every audio-quota state persisted by `incrementAudioPlay` (the only
operation of the module that persists state; the repair path of `readState`
returns a repaired state without persisting it) has `0 ≤ used ≤ MAX_PLAYS`,
carries the signature of its own `(dateKey, used)` under the fixed salt, and
is returned unchanged — hence verifies — by the next same-day read. -/
theorem C9_persisted_state_invariant (raw : audioLimit.Raw) (today : String) :
    ∃ st : audioLimit.LimitState,
      audioLimit.incrementAudioPlay today raw = some (some st) ∧
      0 ≤ st.used ∧ st.used ≤ audioLimit.MAX_PLAYS ∧
      st.dateKey = today ∧
      st.sig = audioLimit.sign st.dateKey st.used ∧
      audioLimit.readState (audioLimit.incrementAudioPlay today raw) today
        = st := by
  obtain ⟨hl, hu⟩ := audioLimit.readState_used_bounds raw today
  have hinc : audioLimit.incrementAudioPlay today raw =
      audioLimit.writeState today
        (min audioLimit.MAX_PLAYS ((audioLimit.readState raw today).used + 1)) := by
    simp [audioLimit.incrementAudioPlay, audioLimit.readState_dateKey]
  refine ⟨⟨today, min audioLimit.MAX_PLAYS ((audioLimit.readState raw today).used + 1),
      audioLimit.sign today
        (min audioLimit.MAX_PLAYS ((audioLimit.readState raw today).used + 1))⟩,
    ?_, ?_, ?_, rfl, rfl, ?_⟩
  · rw [hinc]; rfl
  · simp only [audioLimit.MAX_PLAYS] at *
    omega
  · simp only [audioLimit.MAX_PLAYS] at *
    omega
  · rw [hinc, audioLimit.readState_writeState]
    · simp only [audioLimit.MAX_PLAYS] at *
      omega
    · simp only [audioLimit.MAX_PLAYS] at *
      omega

/-- C4, counterexample: the `audioCrypto` session guard uses inclusive bounds.
With a session unlocked at time 0 and last activity at `now = 120000 =
MAX_SESSION`, the elapsed session time equals `MAX_SESSION`, so the claim's
strict invariant `now - startedAt < MAX_SESSION_MS` is violated, yet
`isSessionValid` returns true. -/
theorem C4_boundary_counterexample :
    audioCrypto.isSessionValid (.record 0 120000) 120000 = true ∧
    ¬ ((120000 : Int) - 0 < audioCrypto.MAX_SESSION) := by
  decide

/-- C4, amended: validity never raises and is false on absent or unparseable
records; on a parsed record the `audioCrypto` guard is valid iff
`now - startedAt ≤ MAX_SESSION` and `now - lastActivityAt ≤ IDLE_LIMIT`
(inclusive bounds), while the `qrSession` guard additionally rejects records
with a zero field and uses the claim's strict bounds. -/
theorem C4_validity_characterization (now : Int) :
    (audioCrypto.isSessionValid .absent now = false ∧
      audioCrypto.isSessionValid .garbage now = false ∧
      ∀ a b : Int,
        (audioCrypto.isSessionValid (.record a b) now = true ↔
          (now - a ≤ audioCrypto.MAX_SESSION ∧
            now - b ≤ audioCrypto.IDLE_LIMIT))) ∧
    (qrSession.isSessionValid .absent now = false ∧
      qrSession.isSessionValid .garbage now = false ∧
      ∀ a b : Int,
        (qrSession.isSessionValid (.record a b) now = true ↔
          (a ≠ 0 ∧ b ≠ 0 ∧ now - a < qrSession.SESSION_MS ∧
            now - b < qrSession.IDLE_MS))) := by
  refine ⟨⟨rfl, rfl, fun a b => ?_⟩, ⟨rfl, rfl, fun a b => ?_⟩⟩
  · simp only [audioCrypto.isSessionValid]
    split_ifs with h1 h2 <;> constructor <;> intro h <;>
      first
        | omega
        | simp_all
  · simp only [qrSession.isSessionValid, qrSession.read]
    split_ifs with h1
    · simp only [Bool.false_eq_true, false_iff]
      intro h
      tauto
    · push_neg at h1
      simp only [Bool.and_eq_true, decide_eq_true_eq]
      constructor
      · intro h
        exact ⟨h1.1, h1.2, by omega, by omega⟩
      · intro h
        exact ⟨by omega, by omega⟩

/-- C4 witness: a freshly started `qrSession` at `t = 1` is valid at `t = 2`. -/
theorem C4_validity_characterization_witness :
    qrSession.isSessionValid (.record 1 1) 2 = true :=
  ((C4_validity_characterization 2).2.2.2 1 1).mpr
    ⟨by decide, by decide, by decide, by decide⟩

/-- C8: `updateActivity` is a no-op on an absent or unparseable session (it
never creates one), and on a persisted session record it rewrites only the
last-activity field to `now`, keeping the start timestamp; the `qrSession`
variant requires the record's fields to be nonzero (its parser rejects falsy
fields) and leaves zero-fielded records untouched as well. -/
theorem C8_touch_updates_only_last_activity (now : Int) :
    (audioCrypto.updateActivity .absent now = .absent ∧
      audioCrypto.updateActivity .garbage now = .garbage ∧
      ∀ a b : Int,
        audioCrypto.updateActivity (.record a b) now = .record a now) ∧
    (qrSession.updateActivity .absent now = .absent ∧
      qrSession.updateActivity .garbage now = .garbage ∧
      (∀ a b : Int, a ≠ 0 → b ≠ 0 →
        qrSession.updateActivity (.record a b) now = .record a now) ∧
      (∀ a b : Int, a = 0 ∨ b = 0 →
        qrSession.updateActivity (.record a b) now = .record a b)) := by
  refine ⟨⟨rfl, rfl, fun a b => rfl⟩, rfl, rfl, fun a b ha hb => ?_,
    fun a b hab => ?_⟩
  · simp [qrSession.updateActivity, qrSession.read, qrSession.write, ha, hb]
  · simp [qrSession.updateActivity, qrSession.read, hab]

/-- C8 witness: touching the concrete session `(start 5, last 6)` at time 9
moves only the last-activity field. -/
theorem C8_touch_updates_only_last_activity_witness :
    qrSession.updateActivity (.record 5 6) 9 = .record 5 9 :=
  (C8_touch_updates_only_last_activity 9).2.2.2.1 5 6 (by decide) (by decide)

/-- C10: `getRemainingTimes` returns `none` exactly when there is no stored
record or it fails to parse (for `qrSession`, parsing is its `read`, which
also rejects records with a falsy field); on every parsed session — expired
or not — it returns `some` pair with both components clamped below at 0. -/
theorem C10_remaining_none_iff_unparseable (raw : SessionRaw) (now : Int) :
    (audioCrypto.getRemainingTimes raw now = none ↔
      (raw = .absent ∨ raw = .garbage)) ∧
    (∀ a b : Int, raw = .record a b →
      audioCrypto.getRemainingTimes raw now =
        some (max 0 (audioCrypto.MAX_SESSION - (now - a)),
          max 0 (audioCrypto.IDLE_LIMIT - (now - b)))) ∧
    (qrSession.getRemainingTimes raw now = none ↔ qrSession.read raw = none) ∧
    (∀ s : qrSession.Session, qrSession.read raw = some s →
      qrSession.getRemainingTimes raw now =
        some (max 0 (qrSession.SESSION_MS - (now - s.sessionStart)),
          max 0 (qrSession.IDLE_MS - (now - s.lastActivity)))) := by
  refine ⟨?_, fun a b hab => ?_, ?_, fun s hs => ?_⟩
  · cases raw <;> simp [audioCrypto.getRemainingTimes]
  · subst hab; rfl
  · cases raw with
    | absent => simp [qrSession.getRemainingTimes, qrSession.read]
    | garbage => simp [qrSession.getRemainingTimes, qrSession.read]
    | record a b =>
      simp only [qrSession.getRemainingTimes, qrSession.read]
      split_ifs <;> simp
  · simp [qrSession.getRemainingTimes, hs]

/-- C10 witness: an expired concrete `audioCrypto` session still yields a
non-null, zero-clamped pair. -/
theorem C10_remaining_none_iff_unparseable_witness :
    audioCrypto.getRemainingTimes (.record 0 0) 999999 = some (0, 0) := by
  have h := (C10_remaining_none_iff_unparseable (.record 0 0) 999999).2.1 0 0 rfl
  rw [h]
  decide

/-- C2, counterexample: with an empty store and a network fetch that delivers
`[7]`, a failing cache-store write makes `loadVideoWithCache` reject with the
store error instead of returning the fetched bytes; the same input with a
succeeding write does return them tagged `network`, so it is precisely the
write failure that blocks the result. -/
theorem C2_write_failure_blocks_counterexample :
    videoCache.loadVideoWithCache id (fun _ => some [7]) false 0 [] "u" 1000
        false "video/mp4" = .error .storeError ∧
    videoCache.loadVideoWithCache id (fun _ => some [7]) true 0 [] "u" 1000
        false "video/mp4" =
      .ok ⟨[7], .network, [⟨"u", [7], 0, 1000, false, "video/mp4"⟩], true⟩ :=
  ⟨rfl, rfl⟩

/-- C2, amended: on a cache miss with a successful fetch, both caches return
the original fetched bytes tagged `network` when the store write succeeds,
and reject with the store-write error — returning no bytes — when it fails. -/
theorem C2_network_return_requires_write_success
    (normalize : String → String) (fetch afetch : String → Option (List Nat))
    (now anow : Int) (store : videoCache.Store) (astore : audioCache.Store)
    (url aurl : String) (ttlMs : Int) (useEncrypt : Bool) (mime : String)
    (buf abuf : List Nat)
    (hmiss : videoCache.findEntry store (normalize url) = none)
    (hfetch : fetch (normalize url) = some buf)
    (hamiss : audioCache.findEntry astore aurl = none)
    (hafetch : afetch aurl = some abuf) :
    videoCache.loadVideoWithCache normalize fetch true now store url ttlMs
        useEncrypt mime =
      .ok ⟨buf, .network,
        videoCache.putEntry store ⟨normalize url,
          (if useEncrypt then audioCrypto.encryptBytes buf else buf),
          now, ttlMs, useEncrypt, mime⟩, true⟩ ∧
    videoCache.loadVideoWithCache normalize fetch false now store url ttlMs
        useEncrypt mime = .error .storeError ∧
    audioCache.getCachedAudioUrlOrFetch afetch true anow astore aurl =
      .ok ⟨abuf, .network,
        audioCache.putEntry astore ⟨aurl, abuf, anow⟩, true⟩ ∧
    audioCache.getCachedAudioUrlOrFetch afetch false anow astore aurl =
      .error .storeError := by
  refine ⟨?_, ?_, ?_, ?_⟩ <;>
    simp [videoCache.loadVideoWithCache, videoCache.networkPhase,
      audioCache.getCachedAudioUrlOrFetch, audioCache.networkPhase,
      hmiss, hfetch, hamiss, hafetch]

/-- C2 witness: the amended theorem at a concrete miss-and-fetch input. -/
theorem C2_network_return_requires_write_success_witness :
    videoCache.loadVideoWithCache id (fun _ => some [3, 4]) false 7 [] "v" 50
        true "video/mp4" = .error .storeError :=
  (C2_network_return_requires_write_success id (fun _ => some [3, 4])
    (fun _ => some [9]) 7 0 [] [] "v" "a" 50 true "video/mp4" [3, 4] [9]
    rfl rfl rfl rfl).2.1

/-- C6: a fresh cache hit (an entry under the key with
`now - createdAt < ttlMs`) returns that entry's bytes — deobfuscated when its
flag is set — tagged `cache`, leaves the store untouched and performs no
network fetch, in both caches; consequently, a second call within `ttlMs` of
a first miss-then-network call reports `cache` and returns bytes identical to
the first call's result. -/
theorem C6_fresh_hit_and_second_call :
    (∀ (normalize : String → String) (fetch : String → Option (List Nat))
        (writeOk : Bool) (now : Int) (store : videoCache.Store) (url : String)
        (ttlMs : Int) (useEncrypt : Bool) (mime : String)
        (cached : videoCache.CachedVideo),
      videoCache.findEntry store (normalize url) = some cached →
      now - cached.createdAt < cached.ttlMs →
      videoCache.loadVideoWithCache normalize fetch writeOk now store url
          ttlMs useEncrypt mime =
        .ok ⟨(if cached.encrypted then audioCrypto.decryptBytes cached.data
          else cached.data), .cache, store, false⟩) ∧
    (∀ (fetch : String → Option (List Nat)) (writeOk : Bool) (now : Int)
        (store : audioCache.Store) (url : String)
        (cached : audioCache.CachedAudio),
      audioCache.findEntry store url = some cached →
      now - cached.createdAt < audioCache.CACHE_TTL →
      audioCache.getCachedAudioUrlOrFetch fetch writeOk now store url =
        .ok ⟨cached.data, .cache, store, false⟩) ∧
    (∀ (normalize : String → String)
        (fetch fetch2 : String → Option (List Nat)) (writeOk2 : Bool)
        (now now2 : Int) (store : videoCache.Store) (url : String)
        (ttlMs : Int) (useEncrypt : Bool) (mime : String) (buf : List Nat)
        (out : videoCache.LoadOutcome),
      videoCache.findEntry store (normalize url) = none →
      fetch (normalize url) = some buf →
      now2 - now < ttlMs →
      videoCache.loadVideoWithCache normalize fetch true now store url ttlMs
          useEncrypt mime = .ok out →
      videoCache.loadVideoWithCache normalize fetch2 writeOk2 now2 out.store
          url ttlMs useEncrypt mime =
        .ok ⟨out.bytes, .cache, out.store, false⟩) ∧
    (∀ (fetch fetch2 : String → Option (List Nat)) (writeOk2 : Bool)
        (now now2 : Int) (store : audioCache.Store) (url : String)
        (buf : List Nat) (out : audioCache.LoadOutcome),
      audioCache.findEntry store url = none →
      fetch url = some buf →
      now2 - now < audioCache.CACHE_TTL →
      audioCache.getCachedAudioUrlOrFetch fetch true now store url = .ok out →
      audioCache.getCachedAudioUrlOrFetch fetch2 writeOk2 now2 out.store url =
        .ok ⟨out.bytes, .cache, out.store, false⟩) := by
  refine ⟨?_, ?_, ?_, ?_⟩
  · intro normalize fetch writeOk now store url ttlMs useEncrypt mime cached
      hhit hfresh
    simp [videoCache.loadVideoWithCache, hhit, hfresh]
  · intro fetch writeOk now store url cached hhit hfresh
    simp [audioCache.getCachedAudioUrlOrFetch, hhit, hfresh]
  · intro normalize fetch fetch2 writeOk2 now now2 store url ttlMs useEncrypt
      mime buf out hmiss hfetch hfresh hfirst
    have h1 : videoCache.loadVideoWithCache normalize fetch true now store url
        ttlMs useEncrypt mime =
      .ok ⟨buf, .network,
        videoCache.putEntry store ⟨normalize url,
          (if useEncrypt then audioCrypto.encryptBytes buf else buf),
          now, ttlMs, useEncrypt, mime⟩, true⟩ := by
      simp [videoCache.loadVideoWithCache, videoCache.networkPhase, hmiss,
        hfetch]
    rw [h1] at hfirst
    obtain rfl : out = ⟨buf, .network,
        videoCache.putEntry store ⟨normalize url,
          (if useEncrypt then audioCrypto.encryptBytes buf else buf),
          now, ttlMs, useEncrypt, mime⟩, true⟩ :=
      (Except.ok.injEq _ _ ▸ hfirst).symm
    have hfind := videoCache.findEntry_putEntry_video store
      ⟨normalize url,
        (if useEncrypt then audioCrypto.encryptBytes buf else buf),
        now, ttlMs, useEncrypt, mime⟩
    simp only [videoCache.loadVideoWithCache, hfind]
    cases useEncrypt <;>
      simp [hfresh, audioCrypto.decryptBytes_encryptBytes]
  · intro fetch fetch2 writeOk2 now now2 store url buf out hmiss hfetch hfresh
      hfirst
    have h1 : audioCache.getCachedAudioUrlOrFetch fetch true now store url =
        .ok ⟨buf, .network, audioCache.putEntry store ⟨url, buf, now⟩, true⟩ := by
      simp [audioCache.getCachedAudioUrlOrFetch, audioCache.networkPhase,
        hmiss, hfetch]
    rw [h1] at hfirst
    obtain rfl : out = ⟨buf, .network,
        audioCache.putEntry store ⟨url, buf, now⟩, true⟩ :=
      (Except.ok.injEq _ _ ▸ hfirst).symm
    have hfind := audioCache.findEntry_putEntry_audio store ⟨url, buf, now⟩
    simp only [audioCache.getCachedAudioUrlOrFetch, hfind]
    simp [hfresh]

/-- C6 witness: a concrete miss-then-network call followed within the TTL by a
second call that reports `cache` with the same bytes. -/
theorem C6_fresh_hit_and_second_call_witness :
    videoCache.loadVideoWithCache id (fun _ => none) true 10
      [⟨"u", [8], 0, 1000, false, "video/mp4"⟩] "u" 1000 false "video/mp4" =
      .ok ⟨[8], .cache, [⟨"u", [8], 0, 1000, false, "video/mp4"⟩], false⟩ :=
  C6_fresh_hit_and_second_call.1 id (fun _ => none) true 10
    [⟨"u", [8], 0, 1000, false, "video/mp4"⟩] "u" 1000 false "video/mp4"
    ⟨"u", [8], 0, 1000, false, "video/mp4"⟩ rfl (by decide)

/-- C7, counterexample: an entry whose age equals its TTL is stale (it is not
fresh: `now - createdAt < ttlMs` fails) yet `clearExpiredVideoCache` keeps it,
because the sweep only deletes entries with `now - createdAt > ttlMs`. -/
theorem C7_boundary_entry_survives_counterexample :
    ¬ ((5 : Int) - (0 : Int) < (5 : Int)) ∧
    videoCache.clearExpiredVideoCache 5 [⟨"k", [1], 0, 5, false, "m"⟩] =
      [⟨"k", [1], 0, 5, false, "m"⟩] :=
  ⟨by decide, rfl⟩

/-- C7, amended: after a sweep, an entry remains exactly when it was in the
store with `now - createdAt ≤ ttlMs`; so every entry strictly older than its
TTL is deleted, while entries at the boundary age `= ttlMs` — already stale
for reads — survive, and every fresh entry remains. -/
theorem C7_sweep_characterization (now : Int) :
    (∀ (store : videoCache.Store) (e : videoCache.CachedVideo),
      e ∈ videoCache.clearExpiredVideoCache now store ↔
        e ∈ store ∧ now - e.createdAt ≤ e.ttlMs) ∧
    (∀ (store : audioCache.Store) (e : audioCache.CachedAudio),
      e ∈ audioCache.clearExpiredAudioCache now store ↔
        e ∈ store ∧ now - e.createdAt ≤ audioCache.CACHE_TTL) := by
  constructor <;> intro store e <;>
    simp [videoCache.clearExpiredVideoCache, audioCache.clearExpiredAudioCache,
      List.mem_filter]

/-- C7 witness: a concrete fresh entry survives a concrete sweep. -/
theorem C7_sweep_characterization_witness :
    (⟨"k", [1], 0, 9, false, "m"⟩ : videoCache.CachedVideo) ∈
      videoCache.clearExpiredVideoCache 5 [⟨"k", [1], 0, 9, false, "m"⟩] :=
  ((C7_sweep_characterization 5).1 [⟨"k", [1], 0, 9, false, "m"⟩]
    ⟨"k", [1], 0, 9, false, "m"⟩).mpr ⟨by decide, by decide⟩

/-- C6, counterexample: the second-call consequence does not hold when the
first call itself hit a near-expiry entry. With an entry created at 0 with
`ttlMs = 1000`, a first call at `now = 950` is served from the cache, and a
second call 100 ms later — well within `ttlMs` of the first — finds the entry
stale (age 1050) and goes to the network, returning `"network"` and different
bytes. -/
theorem C6_near_expiry_second_call_counterexample :
    videoCache.loadVideoWithCache id (fun _ => some [9]) true 950
        [⟨"u", [8], 0, 1000, false, "m"⟩] "u" 1000 false "m" =
      .ok ⟨[8], .cache, [⟨"u", [8], 0, 1000, false, "m"⟩], false⟩ ∧
    ((1050 : Int) - 950 < 1000) ∧
    videoCache.loadVideoWithCache id (fun _ => some [9]) true 1050
        [⟨"u", [8], 0, 1000, false, "m"⟩] "u" 1000 false "m" =
      .ok ⟨[9], .network, [⟨"u", [9], 1050, 1000, false, "m"⟩], true⟩ ∧
    MediaSource.network ≠ MediaSource.cache ∧ ([9] : List Nat) ≠ [8] :=
  ⟨rfl, by decide, rfl, by decide, by decide⟩
